import Mathlib

/-!
Shallow embedding of the webstudio AI prompt-chain module
(`action`, `generate`, `getChainForPrompt`, `getJSONCodeBlock` from the
Remix route source). External library functions (JSON.parse, the
markdown parser, JSON.stringify, the zod schema parsers) are opaque
collaborators of this module; they are modelled as explicit function
parameters collected in the `Ext` structure, so every theorem quantifies
over their behaviour and witnesses instantiate them with concrete toy
implementations.
-/

namespace Webstudio

/-- A JSON value, as produced by the external `JSON.parse`. The module
only inspects values via `Array.isArray` and passes them to opaque
validators, so the exact carrier of numbers is irrelevant. -/
inductive Json where
  | null : Json
  | bool (b : Bool) : Json
  | num (n : Int) : Json
  | str (s : String) : Json
  | arr (elems : List Json) : Json
  | obj (fields : List (String × Json)) : Json

/-- Chat roles of `ChatCompletionRequestMessage`. -/
inductive Role where
  | user : Role
  | assistant : Role
  | system : Role
deriving DecidableEq, Repr

/-- A `ChatCompletionRequestMessage`: role plus text content. -/
structure ChatMessage where
  role : Role
  content : String
deriving DecidableEq, Repr

/-- The closed step enumeration `z.enum(["instances", "styles"])`. -/
inductive Step where
  | instances : Step
  | styles : Step
deriving DecidableEq, Repr

/-- The string name of a step, as interpolated into error messages. -/
def stepName : Step → String
  | .instances => "instances"
  | .styles => "styles"

/-- A fenced code block node of the markdown tree visited by
`visit(tree, "code", ...)`: an optional language tag and the literal
body. `lang = none` models a fence with no info string. -/
structure CodeNode where
  lang : Option String
  value : String
deriving DecidableEq, Repr

/-- One choice of a `CreateChatCompletionResponse`; `message` is
optional, matching the `completion.choices[0].message?.content` access. -/
structure CompletionChoice where
  message : Option ChatMessage
deriving DecidableEq, Repr

/-- A `CreateChatCompletionResponse` body, reduced to the fields the
module reads. -/
structure CompletionResponse where
  choices : List CompletionChoice
deriving DecidableEq, Repr

/-- Outcome of the external `fetch` to the chat-completions endpoint:
either a parsed JSON body (the `response.ok` branch) or an HTTP failure
carrying `response.status` and `response.statusText`. -/
inductive FetchOutcome where
  | success (body : CompletionResponse) : FetchOutcome
  | failure (status : Nat) (statusText : String) : FetchOutcome

/-- The external collaborators of the module, passed in as opaque
functions: `jsonParse` models `JSON.parse` (`none` = throws),
`parseCode` models parsing the text as markdown and listing its fenced
code blocks in document order, `stringify` models
`JSON.stringify(v, null, 2)`, `wsEmbedTemplateParse` models
`WsEmbedTemplate.parse`, `stylesArrayParse` models
`z.array(EmbedTemplateStyles).parse` (for both, `.error m` = throws a
ZodError with message `m`), and `parseMessages` models `JSON.parse` of a
per-step message-history form field. -/
structure Ext where
  jsonParse : String → Option Json
  parseCode : String → List CodeNode
  stringify : Json → String
  wsEmbedTemplateParse : Json → Except String Unit
  stylesArrayParse : Json → Except String Unit
  parseMessages : String → Except String (List ChatMessage)

/-- JS `String.prototype.trim`, modelled by structural recursion over
the character list so that it is kernel-computable: drop whitespace from
both ends. -/
def jsTrim (s : String) : String :=
  ⟨((s.data.dropWhile Char.isWhitespace).reverse.dropWhile Char.isWhitespace).reverse⟩

/-- Whether the first character list starts with the second. -/
def charsMatch : List Char → List Char → Bool
  | _, [] => true
  | [], _ :: _ => false
  | c :: cs, d :: ds => c = d && charsMatch cs ds

/-- JS `String.prototype.startsWith`, by structural recursion over
characters. -/
def jsStartsWith (s pat : String) : Bool :=
  charsMatch s.data pat.data

/-- Replace the first occurrence of `pat` (leaving the rest of the
string unsearched), over character lists. -/
def replaceFirstChars (pat repl : List Char) : List Char → List Char
  | [] => []
  | c :: cs =>
    if charsMatch (c :: cs) pat then repl ++ (c :: cs).drop pat.length
    else c :: replaceFirstChars pat repl cs

/-- The candidate list built by visiting code nodes in document order:
a `json`-tagged block is `unshift`ed (prepended), a block with a falsy
language tag is `push`ed (appended), any other language is skipped.
Each collected value is trimmed, as in `node.value.trim()`. -/
def collectCodeBlocks (nodes : List CodeNode) : List String :=
  nodes.foldl
    (fun acc node =>
      if node.lang = some "json" then jsTrim node.value :: acc
      else if node.lang = none ∨ node.lang = some "" then acc ++ [jsTrim node.value]
      else acc)
    []

/-- The error message thrown by `getJSONCodeBlock`:
`errorMsg.join("\n\n")` where `errorMsg` is `["Parsing failed"]`, plus
`"No code blocks found"` when no candidate block was collected, plus the
full original text outside production mode. -/
def mkExtractionError (production noBlocks : Bool) (text : String) : String :=
  String.intercalate "\n\n"
    (["Parsing failed"]
      ++ (if noBlocks then ["No code blocks found"] else [])
      ++ (if production then [] else [text]))

/-- Embedding of `getJSONCodeBlock`: try `JSON.parse(text.trim())`; on
failure collect fenced code blocks and try to parse the first candidate;
otherwise throw the assembled error message. `production` models
`process.env.NODE_ENV === "production"`. -/
def getJSONCodeBlock (ext : Ext) (production : Bool) (text : String) :
    Except String Json :=
  match ext.jsonParse (jsTrim text) with
  | some v => .ok v
  | none =>
    match collectCodeBlocks (ext.parseCode text) with
    | c :: _ =>
      match ext.jsonParse c with
      | some v => .ok v
      | none => .error (mkExtractionError production false text)
    | [] => .error (mkExtractionError production true text)

/-- The substitution marker of the prompt templates. -/
def promptMarker : String := "<!--prompt-content-->"

/-- Replace the first occurrence of the literal pattern `pat` in `s`,
as done by `template.replace(/<!--prompt-content-->/, prompt)` (a
non-global regex of a literal, i.e. first occurrence only). -/
def replaceFirst (s pat repl : String) : String :=
  ⟨replaceFirstChars pat.data repl.data s.data⟩

/-- The `user` message built for a step:
`template.replace(marker, prompt).trim()`. -/
def stepUserMessage (template prompt : String) : ChatMessage :=
  ⟨Role.user, jsTrim (replaceFirst template promptMarker prompt)⟩

/-- `completion.choices[0].message?.content || ""` once `choices[0]`
is known to exist: absent message yields the empty string. -/
def extractContent (choice : CompletionChoice) : String :=
  (choice.message.map (fun m => m.content)).getD ""

/-- The loop body of `getChainForPrompt`'s `chain`, with the list of
outbound request message lists recorded alongside the responses so that
the calls issued to the completion client are observable. The current
step index `i` of the source loop equals `responses.length`. An
out-of-range `messages[i]` is `undefined`, which passes the
`!== null` test and makes `unshift(...undefined)` throw; `choices[0]`
being absent likewise throws when `.message` is read. -/
def runChainAux (complete : List ChatMessage → Except String CompletionResponse)
    (prompt : String) (messages : List (Option (List ChatMessage))) :
    List (Step × String) → List (Step × String) → List (List ChatMessage) →
    Except String (List (Step × String)) × List (List ChatMessage)
  | [], responses, requests => (.ok responses, requests)
  | (step, template) :: rest, responses, requests =>
    match messages.get? responses.length with
    | none => (.error "TypeError: messagesForStep is not iterable", requests)
    | some mOpt =>
      let userMsg := stepUserMessage template prompt
      let req : List ChatMessage :=
        match mOpt with
        | some ms => ms ++ [userMsg]
        | none =>
          if 0 < responses.length then
            match responses.get? (responses.length - 1) with
            | some prev => [⟨Role.assistant, prev.2⟩, userMsg]
            | none => [userMsg]
          else [userMsg]
      match complete req with
      | .error e => (.error e, requests ++ [req])
      | .ok completion =>
        match completion.choices.head? with
        | none =>
          (.error "TypeError: cannot read message of undefined", requests ++ [req])
        | some choice =>
          runChainAux complete prompt messages rest
            (responses ++ [(step, extractContent choice)]) (requests ++ [req])

/-- Embedding of the `chain` closure returned by `getChainForPrompt`:
run all steps in order, threading explicit or synthesized history, and
return the `[Step, string][]` responses (with the request log). -/
def runChain (complete : List ChatMessage → Except String CompletionResponse)
    (prompt : String) (messages : List (Option (List ChatMessage)))
    (steps : List (Step × String)) :
    Except String (List (Step × String)) × List (List ChatMessage) :=
  runChainAux complete prompt messages steps [] []

/-- The step validators table. Both members of the step enumeration
have a validator, so the `typeof validators[step] === "function"` guard
in `generate` always passes. -/
def validators (ext : Ext) : Step → Json → Except String Unit
  | .instances => ext.wsEmbedTemplateParse
  | .styles => ext.stylesArrayParse

/-- The array normalization `Array.isArray(json) ? json : [json]`
applied to each step's extracted value. -/
def arrayNormalize : Json → List Json
  | .arr xs => xs
  | j => [j]

/-- The per-response body of the `responses.map` in `generate`: extract
a JSON value, validate it for the step (wrapping a validation failure in
the `Invalid <step> generation.` message, redacted in production), and
array-normalize the result as `Array.isArray(json) ? json : [json]`. -/
def processStep (ext : Ext) (production : Bool) (sr : Step × String) :
    Except String (Step × List Json) :=
  match getJSONCodeBlock ext production sr.2 with
  | .error e => .error e
  | .ok json =>
    match validators ext sr.1 json with
    | .error msg =>
      .error ("Invalid " ++ stepName sr.1 ++ " generation. "
        ++ (if production then "" else ext.stringify json ++ "\n\n" ++ msg))
    | .ok _ => .ok (sr.1, arrayNormalize json)

/-- The model field of `OpenAIConfig`. -/
inductive OpenAIModel where
  | gpt35turbo : OpenAIModel
  | gpt4 : OpenAIModel
deriving DecidableEq, Repr

/-- The `OpenAIConfig` passed to `generate`. `model` and `maxTokens`
only enter the serialized network request body, which is behind the
opaque fetch boundary. -/
structure OpenAIConfig where
  apiKey : String
  organization : String
  model : OpenAIModel
  maxTokens : Nat

/-- The `complete` closure built inside `generate` around `fetch`: a
non-ok HTTP response throws `` `${status}: ${statusText}` ``. -/
def mkComplete (fetchFn : List ChatMessage → FetchOutcome) :
    List ChatMessage → Except String CompletionResponse :=
  fun msgs =>
    match fetchFn msgs with
    | .success body => .ok body
    | .failure status statusText => .error (toString status ++ ": " ++ statusText)

/-- The body of `generate`'s `try` block: run the chain, then map each
response through extraction/validation/normalization. Any thrown error
propagates out to the surrounding `catch`. -/
def generateInner (ext : Ext) (production : Bool)
    (complete : List ChatMessage → Except String CompletionResponse)
    (prompt : String) (steps : List (Step × String))
    (messages : List (Option (List ChatMessage))) :
    Except String (List (Step × List Json)) × List (List ChatMessage) :=
  match runChain complete prompt messages steps with
  | (.error e, log) => (.error e, log)
  | (.ok responses, log) => (responses.mapM (processStep ext production), log)

/-- Embedding of `generate`: credential checks happen before the `try`
block (so their errors are not wrapped and no request is issued), then
the inner pipeline runs and any failure is rethrown as
`Something went wrong. ` plus, outside production, the cause. The second
component is the log of requests issued to the completion endpoint. -/
def generate (ext : Ext) (production : Bool)
    (fetchFn : List ChatMessage → FetchOutcome)
    (userPrompt : String) (steps : List (Step × String))
    (messages : List (Option (List ChatMessage))) (config : OpenAIConfig) :
    Except String (List (Step × List Json)) × List (List ChatMessage) :=
  if (jsTrim config.apiKey).length = 0 then (.error "OpenAI API missing", [])
  else if ¬ jsStartsWith config.organization "org-" then
    (.error "OpenAI org missing or invalid", [])
  else
    match generateInner ext production (mkComplete fetchFn) userPrompt steps messages with
    | (.ok r, log) => (.ok r, log)
    | (.error e, log) =>
      (.error ("Something went wrong. " ++ (if production then "" else e)), log)

/-- The parsed form data of the inbound request: `prompt` text, the
repeated `steps` field (already constrained to the step enumeration by
`zfd.repeatableOfType(zfd.text(StepSchema))`), and the repeated optional
`messages` field. -/
structure FormData where
  prompt : String
  steps : List Step
  messages : List (Option String)

/-- The `schema.parse` check on the already-typed form data: the only
remaining constraint is `z.string().max(280)` on the prompt. The error
text models the zod issue message. -/
def schemaParse (fd : FormData) : Except String FormData :=
  if fd.prompt.length > 280 then
    .error "String must contain at most 280 character(s)"
  else .ok fd

/-- One entry of the `steps.map((_, index) => ...)` building the
per-step histories: `formData.messages[index]` is JSON-parsed when it is
a string (a parse failure throws out of the whole `action` body) and
`null` otherwise (absent entry or out-of-range index). -/
def buildMessagesAux (ext : Ext) (raw : List (Option String)) :
    Nat → Nat → Except String (List (Option (List ChatMessage)))
  | _, 0 => .ok []
  | i, n + 1 =>
    match
      (match raw.get? i with
       | some (some m) => (ext.parseMessages m).map some
       | _ => .ok none) with
    | .error e => .error e
    | .ok entry =>
      match buildMessagesAux ext raw (i + 1) n with
      | .error e => .error e
      | .ok rest => .ok (entry :: rest)

/-- The `Messages` array built by `action`: one entry per step, indexed
into the raw repeated `messages` field. -/
def buildMessages (ext : Ext) (stepsLen : Nat) (raw : List (Option String)) :
    Except String (List (Option (List ChatMessage))) :=
  buildMessagesAux ext raw 0 stepsLen

/-- The value returned by `action`: either the success payload, or an
`errors` field holding a list of strings (the literal
`{ errors: ["Feature not available"] }` object), or an `errors` field
holding one string (the `{ errors: error.message }` object built in the
`catch`). -/
inductive ActionResult where
  | success (result : List (Step × List Json)) : ActionResult
  | errorsList (errors : List String) : ActionResult
  | errorsString (errors : String) : ActionResult

/-- Whether an action result is an error payload whose `errors` field
is a single string. -/
def isErrorsString : ActionResult → Bool
  | .errorsString _ => true
  | _ => false

/-- Embedding of the `action` entry point. `featureEnabled` models
`isFeatureEnabled("ai")`; `envKey`/`envOrg` model `env.OPENAI_KEY` /
`env.OPENAI_ORG` (`none` = unset, defaulted by `|| ""`); `templates` is
the prompt-template table, whose text content the module treats as
opaque strings containing the substitution marker. Everything in the
`try` block that throws lands in the `catch`, which returns
`{ errors: error.message }`. This is the body of the `try` block. -/
def actionTry (ext : Ext) (production : Bool)
    (fetchFn : List ChatMessage → FetchOutcome)
    (envKey envOrg : Option String) (templates : Step → String)
    (fd : FormData) : Except String (List (Step × List Json)) := do
  let formData ← schemaParse fd
  let userPrompt := jsTrim formData.prompt
  let steps : List (Step × String) :=
    formData.steps.map (fun s => (s, templates s))
  let messages ← buildMessages ext steps.length formData.messages
  (generate ext production fetchFn userPrompt steps messages
    { apiKey := envKey.getD "", organization := envOrg.getD "",
      model := OpenAIModel.gpt35turbo, maxTokens := 3000 }).1

/-- Embedding of the `action` entry point: the feature-flag gate (whose
error payload is a list of strings), then the `try` body, whose thrown
errors are returned as `{ errors: error.message }` with a single string. -/
def action (ext : Ext) (featureEnabled production : Bool)
    (fetchFn : List ChatMessage → FetchOutcome)
    (envKey envOrg : Option String) (templates : Step → String)
    (fd : FormData) : ActionResult :=
  if ¬ featureEnabled then .errorsList ["Feature not available"]
  else
    match actionTry ext production fetchFn envKey envOrg templates fd with
    | .ok r => .success r
    | .error e => .errorsString e

/-!
## Concrete instantiations used by the witnesses

Toy but fully executable implementations of the external collaborators
and of the completion client, on which the universally quantified
theorems below are evaluated at concrete inputs.
-/

/-- A concrete external-function table for witnesses. -/
def extW : Ext where
  jsonParse := fun s =>
    if s = "[]" then some (Json.arr [])
    else if s = "[1]" then some (Json.arr [Json.num 1])
    else if s = "5" then some (Json.num 5)
    else if s = "B" then some (Json.str "b")
    else none
  parseCode := fun t =>
    if t = "TWO" then [⟨some "json", "[1]"⟩, ⟨none, "x"⟩]
    else if t = "TWOJ" then [⟨some "json", "A"⟩, ⟨some "json", "B"⟩]
    else []
  stringify := fun _ => "dump"
  wsEmbedTemplateParse := fun _ => .ok ()
  stylesArrayParse := fun _ => .ok ()
  parseMessages := fun _ => .error "bad json"

/-- A fetch stub that always answers with a parseable JSON array. -/
def fetchOk : List ChatMessage → FetchOutcome :=
  fun _ => .success ⟨[⟨some ⟨Role.assistant, "[]"⟩⟩]⟩

/-- A fetch stub that always fails with HTTP 500. -/
def fetchFail : List ChatMessage → FetchOutcome :=
  fun _ => .failure 500 "oops"

/-- A completion-client stub distinguishing the two chain steps by the
length of the outbound message list. -/
def completeW : List ChatMessage → Except String CompletionResponse :=
  fun msgs =>
    if msgs.length = 1 then .ok ⟨[⟨some ⟨Role.assistant, "R0"⟩⟩]⟩
    else .ok ⟨[⟨some ⟨Role.assistant, "R1"⟩⟩]⟩

/-!
## Claims about the extractor
-/

/-- Claim C2: for text that is not directly parseable as JSON and whose
markdown parse yields one fenced block tagged `json` and one untagged
fenced block, extraction returns the parsed content of the JSON-tagged
block, in whichever order the two blocks occur in the document. -/
theorem extract_prefers_json_tagged_block (ext : Ext) (production : Bool)
    (text j u : String) (v : Json)
    (hdirect : ext.jsonParse (jsTrim text) = none)
    (hblocks : ext.parseCode text = [⟨some "json", j⟩, ⟨none, u⟩] ∨
      ext.parseCode text = [⟨none, u⟩, ⟨some "json", j⟩])
    (hparse : ext.jsonParse (jsTrim j) = some v) :
    getJSONCodeBlock ext production text = .ok v := by
  rcases hblocks with h | h <;>
    simp [getJSONCodeBlock, collectCodeBlocks, h, hdirect, hparse]

/-- Witness for C2: on the fixture text the JSON-tagged block (which
comes first here) wins over the untagged one. -/
theorem extract_prefers_json_tagged_block_witness :
    getJSONCodeBlock extW true "TWO" = .ok (Json.arr [Json.num 1]) :=
  extract_prefers_json_tagged_block extW true "TWO" "[1]" "x"
    (Json.arr [Json.num 1]) rfl (Or.inl rfl) rfl

/-- Claim C8: when the text is not directly parseable, the extractor
fails, and its message carries the `No code blocks found` marker exactly
when the candidate list is empty; a candidate that itself fails to parse
produces the marker-less message. `hcand` states that the first
candidate, when one exists, does not parse. -/
theorem extract_failure_message_markers (ext : Ext) (production : Bool)
    (text : String)
    (hdirect : ext.jsonParse (jsTrim text) = none)
    (hcand : (collectCodeBlocks (ext.parseCode text)).head?.bind ext.jsonParse = none) :
    getJSONCodeBlock ext production text =
      .error (String.intercalate "\n\n"
        (["Parsing failed"]
          ++ (if collectCodeBlocks (ext.parseCode text) = [] then
                ["No code blocks found"] else [])
          ++ (if production then [] else [text]))) := by
  unfold getJSONCodeBlock mkExtractionError
  rw [hdirect]
  cases h : collectCodeBlocks (ext.parseCode text) with
  | nil => simp [h]
  | cons c rest =>
    rw [h] at hcand
    simp only [List.head?_cons, Option.some_bind] at hcand
    simp [h, hcand]

/-- Witness for C8, empty-candidate side: no fenced blocks at all, so
the message carries the marker. -/
theorem extract_failure_message_markers_witness :
    getJSONCodeBlock extW true "zzz" =
      .error (String.intercalate "\n\n"
        (["Parsing failed"]
          ++ (if collectCodeBlocks (extW.parseCode "zzz") = [] then
                ["No code blocks found"] else [])
          ++ (if (true : Bool) then [] else ["zzz"]))) :=
  extract_failure_message_markers extW true "zzz" rfl rfl

/-- The `json`-tagged fenced blocks of a node list, in document order. -/
def jsonTaggedNodes (nodes : List CodeNode) : List CodeNode :=
  nodes.filter (fun n => decide (n.lang = some "json"))

/-- The untagged fenced blocks of a node list, in document order. -/
def untaggedNodes (nodes : List CodeNode) : List CodeNode :=
  nodes.filter (fun n => decide (n.lang = none ∨ n.lang = some ""))

/-- The `unshift`/`push` fold over the visited code nodes produces the
reversed JSON-tagged blocks followed by the accumulator followed by the
untagged blocks. -/
theorem collectCodeBlocks_foldl (nodes : List CodeNode) (acc : List String) :
    nodes.foldl
      (fun acc node =>
        if node.lang = some "json" then jsTrim node.value :: acc
        else if node.lang = none ∨ node.lang = some "" then acc ++ [jsTrim node.value]
        else acc) acc =
      (jsonTaggedNodes nodes).reverse.map (fun n => jsTrim n.value) ++ acc
        ++ (untaggedNodes nodes).map (fun n => jsTrim n.value) := by
  induction nodes generalizing acc with
  | nil => simp [jsonTaggedNodes, untaggedNodes]
  | cons n ns ih =>
    by_cases hj : n.lang = some "json"
    · have hnu : ¬ (n.lang = none ∨ n.lang = some "") := by
        rw [hj]; decide
      simp [jsonTaggedNodes, untaggedNodes, List.filter_cons, hj, hnu, ih]
    · by_cases hu : n.lang = none ∨ n.lang = some ""
      · simp [jsonTaggedNodes, untaggedNodes, List.filter_cons, hj, hu, ih]
      · simp [jsonTaggedNodes, untaggedNodes, List.filter_cons, hj, hu, ih]

/-- The candidate list is the reversed JSON-tagged blocks followed by
the untagged blocks, all trimmed. -/
theorem collectCodeBlocks_eq (nodes : List CodeNode) :
    collectCodeBlocks nodes =
      (jsonTaggedNodes nodes).reverse.map (fun n => jsTrim n.value)
        ++ (untaggedNodes nodes).map (fun n => jsTrim n.value) := by
  have h := collectCodeBlocks_foldl nodes []
  simpa [collectCodeBlocks] using h

/-- Claim C10: with two or more `json`-tagged fenced blocks (and no
directly parseable text), the candidate the extractor attempts to parse
is the JSON-tagged block occurring last in document order, because the
repeated `unshift` reverses the encounter order. -/
theorem extract_attempts_last_json_tagged_block (ext : Ext) (production : Bool)
    (text : String) (lastNode : CodeNode)
    (hdirect : ext.jsonParse (jsTrim text) = none)
    (htwo : 2 ≤ (jsonTaggedNodes (ext.parseCode text)).length)
    (hlast : (jsonTaggedNodes (ext.parseCode text)).getLast? = some lastNode) :
    (collectCodeBlocks (ext.parseCode text)).head? = some (jsTrim lastNode.value) ∧
    getJSONCodeBlock ext production text =
      (match ext.jsonParse (jsTrim lastNode.value) with
       | some v => Except.ok v
       | none => Except.error (mkExtractionError production false text)) := by
  have hne : jsonTaggedNodes (ext.parseCode text) ≠ [] := by
    intro h
    rw [h] at htwo
    simp at htwo
  have hhead : (collectCodeBlocks (ext.parseCode text)).head? =
      some (jsTrim lastNode.value) := by
    rw [collectCodeBlocks_eq]
    rw [List.head?_append_of_ne_nil]
    · rw [List.head?_map, List.head?_reverse, hlast]
      rfl
    · simp [hne]
  refine ⟨hhead, ?_⟩
  unfold getJSONCodeBlock
  rw [hdirect]
  cases h : collectCodeBlocks (ext.parseCode text) with
  | nil => rw [h] at hhead; simp at hhead
  | cons c rest =>
    rw [h] at hhead
    simp only [List.head?_cons, Option.some.injEq] at hhead
    rw [hhead]

/-- Witness for C10: two JSON-tagged blocks `A` then `B`; the candidate
attempted is `B`, and it parses. -/
theorem extract_attempts_last_json_tagged_block_witness :
    (collectCodeBlocks (extW.parseCode "TWOJ")).head? = some (jsTrim "B") ∧
    getJSONCodeBlock extW true "TWOJ" =
      (match extW.jsonParse (jsTrim "B") with
       | some v => Except.ok v
       | none => Except.error (mkExtractionError true false "TWOJ")) :=
  extract_attempts_last_json_tagged_block extW true "TWOJ" ⟨some "json", "B"⟩
    rfl (by decide) (by decide)

/-!
## Claims about the chain executor
-/

/-- Claim C3: in a 2-step chain with no explicit history for step 1,
the outbound request of step 1 is exactly two messages: a synthesized
`assistant` message whose content is step 0's raw response text,
followed by the `user` message built from step 1's template with the
marker substituted (and trimmed). The hypotheses describe the
completion client's replies on the two requests the chain issues. -/
theorem chain_synthesizes_assistant_message
    (complete : List ChatMessage → Except String CompletionResponse)
    (prompt t0 t1 : String) (s0 s1 : Step)
    (c0 c1 : CompletionResponse) (ch0 ch1 : CompletionChoice)
    (h0 : complete [stepUserMessage t0 prompt] = .ok c0)
    (hc0 : c0.choices.head? = some ch0)
    (h1 : complete [⟨Role.assistant, extractContent ch0⟩,
      stepUserMessage t1 prompt] = .ok c1)
    (hc1 : c1.choices.head? = some ch1) :
    runChain complete prompt [none, none] [(s0, t0), (s1, t1)] =
      (.ok [(s0, extractContent ch0), (s1, extractContent ch1)],
       [[stepUserMessage t0 prompt],
        [⟨Role.assistant, extractContent ch0⟩, stepUserMessage t1 prompt]]) := by
  simp [runChain, runChainAux, h0, hc0, h1, hc1]

/-- Witness for C3 on the concrete completion stub: step 1's request is
`[assistant "R0", user "B"]`. -/
theorem chain_synthesizes_assistant_message_witness :
    runChain completeW "p" [none, none] [(Step.instances, "A"), (Step.styles, "B")] =
      (.ok [(Step.instances, "R0"), (Step.styles, "R1")],
       [[⟨Role.user, "A"⟩], [⟨Role.assistant, "R0"⟩, ⟨Role.user, "B"⟩]]) :=
  chain_synthesizes_assistant_message completeW "p" "A" "B"
    Step.instances Step.styles
    ⟨[⟨some ⟨Role.assistant, "R0"⟩⟩]⟩ ⟨[⟨some ⟨Role.assistant, "R1"⟩⟩]⟩
    ⟨some ⟨Role.assistant, "R0"⟩⟩ ⟨some ⟨Role.assistant, "R1"⟩⟩
    rfl rfl rfl rfl

/-- Claim C4: in a 2-step chain where step 1 has an explicit message
history, the outbound request of step 1 is exactly that history followed
by step 1's `user` message; step 0's result is not injected. -/
theorem chain_uses_explicit_history
    (complete : List ChatMessage → Except String CompletionResponse)
    (prompt t0 t1 : String) (s0 s1 : Step) (ctx : List ChatMessage)
    (c0 c1 : CompletionResponse) (ch0 ch1 : CompletionChoice)
    (h0 : complete [stepUserMessage t0 prompt] = .ok c0)
    (hc0 : c0.choices.head? = some ch0)
    (h1 : complete (ctx ++ [stepUserMessage t1 prompt]) = .ok c1)
    (hc1 : c1.choices.head? = some ch1) :
    runChain complete prompt [none, some ctx] [(s0, t0), (s1, t1)] =
      (.ok [(s0, extractContent ch0), (s1, extractContent ch1)],
       [[stepUserMessage t0 prompt], ctx ++ [stepUserMessage t1 prompt]]) := by
  simp [runChain, runChainAux, h0, hc0, h1, hc1]

/-- Witness for C4 with the explicit history `[user "x"]` for step 1:
the request is `[user "x", user "B"]`, with no assistant turn. -/
theorem chain_uses_explicit_history_witness :
    runChain completeW "p" [none, some [⟨Role.user, "x"⟩]]
        [(Step.instances, "A"), (Step.styles, "B")] =
      (.ok [(Step.instances, "R0"), (Step.styles, "R1")],
       [[⟨Role.user, "A"⟩], [⟨Role.user, "x"⟩, ⟨Role.user, "B"⟩]]) :=
  chain_uses_explicit_history completeW "p" "A" "B"
    Step.instances Step.styles [⟨Role.user, "x"⟩]
    ⟨[⟨some ⟨Role.assistant, "R0"⟩⟩]⟩ ⟨[⟨some ⟨Role.assistant, "R1"⟩⟩]⟩
    ⟨some ⟨Role.assistant, "R0"⟩⟩ ⟨some ⟨Role.assistant, "R1"⟩⟩
    rfl rfl rfl rfl

/-!
## Claims about generate
-/

/-- Claim C6: with an API key that is empty after trimming, or an
organization identifier not starting with `org-`, `generate` fails with
the corresponding configuration error and issues no request to the
completion endpoint (the request log is empty), for every possible
fetch behaviour. -/
theorem generate_config_error_before_network (ext : Ext) (production : Bool)
    (fetchFn : List ChatMessage → FetchOutcome) (userPrompt : String)
    (steps : List (Step × String)) (messages : List (Option (List ChatMessage)))
    (config : OpenAIConfig)
    (h : (jsTrim config.apiKey).length = 0 ∨
      jsStartsWith config.organization "org-" = false) :
    (generate ext production fetchFn userPrompt steps messages config).2 = [] ∧
    ((generate ext production fetchFn userPrompt steps messages config).1 =
        .error "OpenAI API missing" ∨
      (generate ext production fetchFn userPrompt steps messages config).1 =
        .error "OpenAI org missing or invalid") := by
  unfold generate
  by_cases hk : (jsTrim config.apiKey).length = 0
  · simp [hk]
  · rcases h with h | h
    · exact absurd h hk
    · simp [hk, h]

/-- Witness for C6: empty API key fails fast with an empty request log. -/
theorem generate_config_error_before_network_witness :
    (generate extW true fetchOk "p" [(Step.instances, "T")] [none]
        ⟨"", "org-1", OpenAIModel.gpt35turbo, 3000⟩).2 = [] ∧
    ((generate extW true fetchOk "p" [(Step.instances, "T")] [none]
        ⟨"", "org-1", OpenAIModel.gpt35turbo, 3000⟩).1 =
        .error "OpenAI API missing" ∨
      (generate extW true fetchOk "p" [(Step.instances, "T")] [none]
        ⟨"", "org-1", OpenAIModel.gpt35turbo, 3000⟩).1 =
        .error "OpenAI org missing or invalid") :=
  generate_config_error_before_network extW true fetchOk "p"
    [(Step.instances, "T")] [none] ⟨"", "org-1", OpenAIModel.gpt35turbo, 3000⟩
    (Or.inl (by decide))

/-- Claim C7: with valid credentials, any failure of the inner pipeline
(chain execution, extraction or validation) surfaces as
`Something went wrong. ` followed by the cause outside production mode;
in production mode the surfaced message is exactly the fixed string
`Something went wrong. `, independent of the failure detail. -/
theorem generate_redacts_failure_cause_in_production (ext : Ext)
    (production : Bool) (fetchFn : List ChatMessage → FetchOutcome)
    (userPrompt : String) (steps : List (Step × String))
    (messages : List (Option (List ChatMessage))) (config : OpenAIConfig)
    (e : String)
    (hkey : ¬ (jsTrim config.apiKey).length = 0)
    (horg : jsStartsWith config.organization "org-" = true)
    (hinner : (generateInner ext production (mkComplete fetchFn) userPrompt
      steps messages).1 = .error e) :
    (generate ext production fetchFn userPrompt steps messages config).1 =
      .error ("Something went wrong. " ++ (if production then "" else e)) ∧
    (production = true →
      (generate ext production fetchFn userPrompt steps messages config).1 =
        .error "Something went wrong. ") := by
  have hmain : (generate ext production fetchFn userPrompt steps messages config).1 =
      .error ("Something went wrong. " ++ (if production then "" else e)) := by
    unfold generate
    rw [if_neg hkey, horg]
    rw [if_neg (by simp : ¬ ¬ (true : Bool) = true)]
    cases hgi : generateInner ext production (mkComplete fetchFn) userPrompt
        steps messages with
    | mk res log =>
      rw [hgi] at hinner
      cases res with
      | ok r => simp at hinner
      | error e2 =>
        injection hinner with he
        subst he
        rfl
  refine ⟨hmain, fun hp => ?_⟩
  rw [hmain, hp]
  rfl

/-- Witness for C7: a failing fetch (HTTP 500) in non-production mode
surfaces `Something went wrong. 500: oops`. -/
theorem generate_redacts_failure_cause_in_production_witness :
    (generate extW false fetchFail "p" [(Step.instances, "T")] [none]
        ⟨"k", "org-1", OpenAIModel.gpt35turbo, 3000⟩).1 =
      .error ("Something went wrong. " ++ (if false then "" else "500: oops")) ∧
    (false = true →
      (generate extW false fetchFail "p" [(Step.instances, "T")] [none]
        ⟨"k", "org-1", OpenAIModel.gpt35turbo, 3000⟩).1 =
        .error "Something went wrong. ") :=
  generate_redacts_failure_cause_in_production extW false fetchFail "p"
    [(Step.instances, "T")] [none] ⟨"k", "org-1", OpenAIModel.gpt35turbo, 3000⟩
    "500: oops" (by decide) rfl rfl

/-- Claim C9: for a step whose extraction and validation both succeed,
the output entry is the step identifier paired with the array-normalized
extracted value: the value itself when it is an array, and a singleton
array wrapping it otherwise (`arrayNormalize`). -/
theorem step_output_is_array_normalized (ext : Ext) (production : Bool)
    (step : Step) (response : String) (json : Json)
    (hext : getJSONCodeBlock ext production response = .ok json)
    (hval : validators ext step json = .ok ()) :
    processStep ext production (step, response) = .ok (step, arrayNormalize json) ∧
    (∀ xs, json = Json.arr xs → arrayNormalize json = xs) ∧
    ((∀ xs, json ≠ Json.arr xs) → arrayNormalize json = [json]) := by
  refine ⟨?_, ?_, ?_⟩
  · unfold processStep
    simp only [hext]
    simp only [hval]
  · intro xs hxs
    subst hxs
    rfl
  · intro hne
    cases json with
    | arr xs => exact absurd rfl (hne xs)
    | null => rfl
    | bool b => rfl
    | num n => rfl
    | str s => rfl
    | obj fields => rfl

/-- Witness for C9 on a non-array extracted value: the number `5` is
wrapped in a singleton array. -/
theorem step_output_is_array_normalized_witness :
    processStep extW true (Step.instances, "5") =
      .ok (Step.instances, [Json.num 5]) ∧
    (∀ xs, Json.num 5 = Json.arr xs → arrayNormalize (Json.num 5) = xs) ∧
    ((∀ xs, Json.num 5 ≠ Json.arr xs) → arrayNormalize (Json.num 5) = [Json.num 5]) :=
  step_output_is_array_normalized extW true Step.instances "5" (Json.num 5)
    rfl rfl

/-!
## Claims about the action entry point
-/

/-- Counterexample to C1 as stated: a request whose repeated `messages`
field is shorter than its `steps` field (0 entries versus 1) is not
rejected — the action runs the chain and succeeds. -/
theorem action_accepts_messages_steps_length_mismatch :
    (FormData.mk "p" [Step.instances] []).messages.length ≠
      (FormData.mk "p" [Step.instances] []).steps.length ∧
    action extW true false fetchOk (some "k") (some "org-1")
      (fun _ => "T <!--prompt-content-->") (FormData.mk "p" [Step.instances] []) =
      ActionResult.success [(Step.instances, [])] :=
  ⟨by decide, rfl⟩

/-- The per-step history builder always produces one entry per step,
and every index at or beyond the end of the supplied raw `messages`
list yields an absent (`null`) history. -/
theorem buildMessagesAux_length_and_padding (ext : Ext)
    (raw : List (Option String)) :
    ∀ (n start : Nat) (ms : List (Option (List ChatMessage))),
      buildMessagesAux ext raw start n = .ok ms →
      ms.length = n ∧
      ∀ j, j < n → raw.length ≤ start + j → ms.get? j = some none := by
  intro n
  induction n with
  | zero =>
    intro start ms h
    simp only [buildMessagesAux] at h
    cases h
    exact ⟨rfl, fun j hj _ => absurd hj (Nat.not_lt_zero j)⟩
  | succ n ih =>
    intro start ms h
    unfold buildMessagesAux at h
    cases hget : raw.get? start with
    | none =>
      rw [hget] at h
      cases hrec : buildMessagesAux ext raw (start + 1) n with
      | error e2 => rw [hrec] at h; exact Except.noConfusion h
      | ok rest =>
        rw [hrec] at h
        injection h with h'
        obtain ⟨hlen, hpad⟩ := ih (start + 1) rest hrec
        subst h'
        refine ⟨by simp [hlen], ?_⟩
        intro j hj hrawle
        cases j with
        | zero => rfl
        | succ j' =>
          have : raw.length ≤ start + 1 + j' := by omega
          exact hpad j' (by omega) this
    | some mo =>
      have hlt : start < raw.length := by
        by_contra hge
        rw [List.get?_eq_none.mpr (by omega)] at hget
        exact Option.noConfusion hget
      cases mo with
      | none =>
        rw [hget] at h
        cases hrec : buildMessagesAux ext raw (start + 1) n with
        | error e2 => rw [hrec] at h; exact Except.noConfusion h
        | ok rest =>
          rw [hrec] at h
          injection h with h'
          obtain ⟨hlen, hpad⟩ := ih (start + 1) rest hrec
          subst h'
          refine ⟨by simp [hlen], ?_⟩
          intro j hj hrawle
          cases j with
          | zero => exact absurd hrawle (by omega)
          | succ j' =>
            have : raw.length ≤ start + 1 + j' := by omega
            exact hpad j' (by omega) this
      | some m =>
        rw [hget] at h
        simp only [] at h
        cases hpm : ext.parseMessages m with
        | error e2 =>
          rw [hpm] at h
          exact Except.noConfusion h
        | ok msgs =>
          rw [hpm] at h
          simp only [Except.map] at h
          cases hrec : buildMessagesAux ext raw (start + 1) n with
          | error e2 => rw [hrec] at h; exact Except.noConfusion h
          | ok rest =>
            rw [hrec] at h
            injection h with h'
            obtain ⟨hlen, hpad⟩ := ih (start + 1) rest hrec
            subst h'
            refine ⟨by simp [hlen], ?_⟩
            intro j hj hrawle
            cases j with
            | zero => exact absurd hrawle (by omega)
            | succ j' =>
              have : raw.length ≤ start + 1 + j' := by omega
              exact hpad j' (by omega) this

/-- Amended C1: a `messages` field shorter than `steps` is not a caller
error — the engine silently pads: the built per-step history list has
exactly one entry per step, and every step index at or beyond the end of
the supplied `messages` list gets an absent history (`null`), for which
the chain synthesizes context. -/
theorem buildMessages_pads_short_messages (ext : Ext) (stepsLen : Nat)
    (raw : List (Option String)) (ms : List (Option (List ChatMessage)))
    (i : Nat)
    (h : buildMessages ext stepsLen raw = .ok ms)
    (hi : i < stepsLen) (hraw : raw.length ≤ i) :
    ms.length = stepsLen ∧ ms.get? i = some none := by
  obtain ⟨hlen, hpad⟩ :=
    buildMessagesAux_length_and_padding ext raw stepsLen 0 ms h
  exact ⟨hlen, hpad i hi (by omega)⟩

/-- Witness for the amended C1: one step, no `messages` entries — the
single built history entry is absent. -/
theorem buildMessages_pads_short_messages_witness :
    ([none] : List (Option (List ChatMessage))).length = 1 ∧
    ([none] : List (Option (List ChatMessage))).get? 0 = some none :=
  buildMessages_pads_short_messages extW 1 [] [none] 0 rfl
    (by decide) (by decide)

/-- Counterexample to C5 as stated: with the feature flag disabled the
returned payload's `errors` field is a list of strings, not a single
string. -/
theorem action_feature_disabled_errors_not_string :
    action extW false true fetchOk none none (fun _ => "") (FormData.mk "p" [] []) =
      ActionResult.errorsList ["Feature not available"] ∧
    isErrorsString
      (action extW false true fetchOk none none (fun _ => "") (FormData.mk "p" [] [])) =
      false :=
  ⟨rfl, rfl⟩

/-- Amended C5: the feature-flag-disabled case returns
`{ errors: ["Feature not available"] }` — a one-element list of strings —
while every other failing invocation (flag enabled) returns
`{ errors: string }`: with the flag enabled the result is never a
string-list payload. -/
theorem action_error_payload_shape (ext : Ext) (production : Bool)
    (fetchFn : List ChatMessage → FetchOutcome) (envKey envOrg : Option String)
    (templates : Step → String) (fd : FormData) :
    action ext false production fetchFn envKey envOrg templates fd =
      ActionResult.errorsList ["Feature not available"] ∧
    ∀ l, action ext true production fetchFn envKey envOrg templates fd ≠
      ActionResult.errorsList l := by
  constructor
  · rfl
  · intro l
    unfold action
    rw [if_neg (by simp : ¬ ¬ (true : Bool) = true)]
    cases actionTry ext production fetchFn envKey envOrg templates fd with
    | ok r => simp
    | error e => simp

end Webstudio
